import Mathlib

/-!
Verification of the nekoyume blockchain node core (`nekoyume/models.py`).

This file gives a shallow embedding of the data model and the operations of
`models.py` and proves properties of them.  Conventions used throughout:

* Python exceptions are modelled by `Except PyErr`; `PyErr` distinguishes the
  library exception `OutOfRandomError` from builtin exceptions
  (`IndexError`, `ZeroDivisionError`, `ValueError`, `KeyError`,
  `AttributeError`).
* Python dictionaries with string keys are modelled as insertion-ordered
  association lists `List (String × Int)`.
* Machine integers are modelled as `Int` / `Nat` (Python integers are
  unbounded, so no wrap-around is needed).
* Cryptographic primitives (SHA-256, the seccure signature scheme and the
  hashcash proof-of-work check, which live outside `models.py`) are taken as
  parameters of the definitions that use them; `models.py` only consumes them
  through their interface.
-/

/-- Python exceptions raised by the modelled code paths. -/
inductive PyErr
  | outOfRandom
  | indexError
  | zeroDiv
  | valueError
  | keyError
  | attributeError
deriving DecidableEq, Repr

/-- Lookup in a Python string-keyed dict (`d[k]` would raise on `none`). -/
def dictGet (d : List (String × Int)) (k : String) : Option Int :=
  (d.find? (fun p => p.1 == k)).map (fun p => p.2)

/-- Python `k in d` membership test for a dict. -/
def dictContains (d : List (String × Int)) (k : String) : Bool :=
  (d.find? (fun p => p.1 == k)).isSome

/-- Python `d[k] = v`: replaces the value of an existing key in place,
otherwise appends the new key (Python dicts preserve insertion order). -/
def dictSet (d : List (String × Int)) (k : String) (v : Int) : List (String × Int) :=
  if dictContains d k then d.map (fun p => if p.1 == k then (p.1, v) else p)
  else d ++ [(k, v)]

/-- Python `d[k] -= 1`, raising `KeyError` (modelled as `none`) when the key
is absent. -/
def dictSub1 (d : List (String × Int)) (k : String) : Option (List (String × Int)) :=
  match dictGet d k with
  | none => none
  | some v => some (dictSet d k (v - 1))

/-- The character `+` (named to keep character literals out of expressions). -/
def chPlus : Char := ('+')

/-- The character `-`. -/
def chMinus : Char := ('-')

/-- The character `d`. -/
def chD : Char := ('d')

/-- Split a character list at every occurrence of `sep` (the semantics of
Python `str.split` with a one-character separator). -/
def splitOnChar (sep : Char) : List Char → List (List Char)
  | [] => [[]]
  | c :: rest =>
    match splitOnChar sep rest with
    | [] => [[]]
    | r :: rs => if c = sep then [] :: r :: rs else (c :: r) :: rs

/-- Numeric value of a decimal digit character. -/
def digitVal? (c : Char) : Option Nat :=
  if 48 ≤ c.toNat ∧ c.toNat ≤ 57 then some (c.toNat - 48) else none

/-- Accumulator loop for `digitsToNat?`. -/
def digitsAux : List Char → Nat → Option Nat
  | [], acc => some acc
  | c :: rest, acc =>
    match digitVal? c with
    | none => none
    | some d => digitsAux rest (acc * 10 + d)

/-- Parse a non-empty all-digit character list as a `Nat`
(the behaviour of Python `int` on the numerals used in dice expressions). -/
def digitsToNat? (l : List Char) : Option Nat :=
  if l = [] then none else digitsAux l 0

/-- Parse an optionally `-`-signed numeral as an `Int` (Python `int`). -/
def intChars? (l : List Char) : Option Int :=
  match l with
  | [] => none
  | c :: rest =>
    if c = chMinus then (digitsToNat? rest).map (fun n => -(n : Int))
    else (digitsToNat? l).map (fun n => (n : Int))

/-- Parse of the string argument of `Move.roll` (models.py lines 403-409):
`dice.find(\x27+\x27) > 0` splits off an additive constant, then
`dice.split(\x27d\x27)` yields the dice count and the dice type.  Returns
`(cnt, dice_type, plus)`; `none` models the `ValueError` that Python
`int`/unpacking would raise on a malformed expression. -/
def parseNd (d : List Char) (k : Int) : Option (Nat × Nat × Int) :=
  match splitOnChar chD d with
  | [c, t] =>
    match digitsToNat? c, digitsToNat? t with
    | some cnt, some m => some (cnt, m, k)
    | _, _ => none
  | _ => none

/-- See `parseNd`; this handles the optional `+K` suffix. -/
def parseDice (dice : String) : Option (Nat × Nat × Int) :=
  match splitOnChar chPlus dice.data with
  | [d] => parseNd d 0
  | [d, p] =>
    if d = [] then none
    else
      match intChars? p with
      | none => none
      | some k => parseNd d k
  | _ => none

/-- The draw loop of `Move.roll` (models.py lines 410-414): `cnt` times pop
the LAST element of `randoms` and score it as `v % dice_type + 1`; an empty
list raises `OutOfRandomError` (via `IndexError`), a zero dice type would
raise `ZeroDivisionError`.  Returns the scores in draw order together with
the remaining list. -/
def drawList (randoms : List Nat) (cnt m : Nat) : Except PyErr (List Nat × List Nat) :=
  match cnt with
  | 0 => .ok ([], randoms)
  | c + 1 =>
    match randoms.getLast? with
    | none => .error .outOfRandom
    | some v =>
      if m = 0 then .error .zeroDiv
      else
        match drawList randoms.dropLast c m with
        | .error e => .error e
        | .ok (res, rest) => .ok ((v % m + 1) :: res, rest)

/-- Embeds `Move.roll` (models.py lines 389-418) with `combine=True`:
parse the dice expression, draw from the tail of `randoms`, and return the
combined sum plus the additive constant, together with what is left of
`randoms`. -/
def roll (randoms : List Nat) (dice : String) : Except PyErr (Int × List Nat) :=
  match parseDice dice with
  | none => .error .valueError
  | some (cnt, m, k) =>
    match drawList randoms cnt m with
    | .error e => .error e
    | .ok (res, rest) => .ok ((res.sum : Int) + k, rest)

/-- Python truthiness of an optional string: `None` and `""` are falsy. -/
def strFalsy : Option String → Bool
  | none => true
  | some s => s = ""

/-- The fields of `Block` that `Move.get_randoms` reads. -/
structure BlockRef where
  hash : Option String
  difficulty : Int
deriving Repr

/-- The fields of `Move` that `Move.get_randoms` reads. -/
structure MoveCtx where
  block : Option BlockRef
  id : Option String
deriving Repr

/-- Python `int(x / 4)` for an integer `x`: true division then truncation
towards zero (exact for these magnitudes because division by 4 is exact in
binary floating point). -/
def truncDiv4 (d : Int) : Int :=
  if 0 ≤ d then ((d.toNat / 4 : Nat) : Int) else -(((-d).toNat / 4 : Nat) : Int)

/-- Python `l[i:]` slicing, including the negative-index case. -/
def pySliceFrom (l : List Nat) (i : Int) : List Nat :=
  if 0 ≤ i then l.drop i.toNat else l.drop ((l.length : Int) + i).toNat

/-- Embeds `Move.get_randoms` (models.py lines 381-387): for a confirmed move
XOR the code points of the block hash and the move id pairwise and drop the
first `int(difficulty / 4)` values; otherwise return the empty list. -/
def getRandoms (mv : MoveCtx) : List Nat :=
  match mv.block with
  | none => []
  | some b =>
    if strFalsy b.hash ∨ strFalsy mv.id then []
    else
      let hs := (b.hash.getD "").data
      let ids := (mv.id.getD "").data
      let result := (hs.zip ids).map (fun p => p.1.toNat ^^^ p.2.toNat)
      pySliceFrom result (truncDiv4 b.difficulty)

/-- The avatar state threaded through move execution (models.py `Avatar` /
`Novice`).  Presentation-only fields (`user`, `name`, `gravatar_hash`,
`current_block`) are omitted: no modelled operation reads them. -/
structure Avatar where
  strength : Int
  dexterity : Int
  constitution : Int
  intelligence : Int
  wisdom : Int
  charisma : Int
  hp : Int
  xp : Int
  lv : Int
  items : List (String × Int)
deriving DecidableEq, Repr

/-- Result record returned by game-move handlers (a Python dict with keys
`type`, `result` and optionally `message`). -/
structure MoveResult where
  type : String
  result : String
  message : Option String
deriving DecidableEq, Repr

/-- The six ability-score attribute names of an avatar. -/
def abilityNames : List String :=
  ["strength", "dexterity", "constitution", "intelligence", "wisdom", "charisma"]

/-- Read an ability score by attribute name (Python `getattr`). -/
def statVal (av : Avatar) (s : String) : Int :=
  if s = "strength" then av.strength
  else if s = "dexterity" then av.dexterity
  else if s = "constitution" then av.constitution
  else if s = "intelligence" then av.intelligence
  else if s = "wisdom" then av.wisdom
  else if s = "charisma" then av.charisma
  else 0

/-- Python `setattr(avatar, s, getattr(avatar, s) + 1)` for an ability name
`s`; other attribute names are modelled as an error (the claims only concern
the six abilities). -/
def incStatus (s : String) (av : Avatar) : Option Avatar :=
  if s = "strength" then some {av with strength := av.strength + 1}
  else if s = "dexterity" then some {av with dexterity := av.dexterity + 1}
  else if s = "constitution" then some {av with constitution := av.constitution + 1}
  else if s = "intelligence" then some {av with intelligence := av.intelligence + 1}
  else if s = "wisdom" then some {av with wisdom := av.wisdom + 1}
  else if s = "charisma" then some {av with charisma := av.charisma + 1}
  else none

/-- Embeds `LevelUp.execute` (models.py lines 607-626): with
`xp < lv + 7` return a failure record; otherwise deduct `lv + 7` xp,
increment the level, increment the ability named by `details[new_status]`,
and additionally increment hp when that ability is `constitution`. -/
def levelUpExecute (newStatus : String) (av : Avatar) : Except PyErr (Avatar × MoveResult) :=
  if av.xp < av.lv + 7 then
    .ok (av, ⟨"level_up", "failed", some "You don\x27t have enough xp."⟩)
  else
    match incStatus newStatus {av with xp := av.xp - (av.lv + 7), lv := av.lv + 1} with
    | none => .error .attributeError
    | some av2 =>
      if newStatus = "constitution" then
        .ok ({av2 with hp := av2.hp + 1}, ⟨"level_up", "success", none⟩)
      else
        .ok (av2, ⟨"level_up", "success", none⟩)

/-- Embeds `Send.execute` (models.py lines 649-666): fail when the item is
absent from the inventory or subtracting `amount` would go negative,
otherwise deduct `amount` of the item. -/
def sendExecute (itemName : String) (amount : Int) (av : Avatar) : Avatar × MoveResult :=
  if ¬ dictContains av.items itemName ∨ (dictGet av.items itemName).getD 0 - amount < 0 then
    (av, ⟨"send", "fail", some "You don\x27t have enough items to send."⟩)
  else
    ({av with items := dictSet av.items itemName ((dictGet av.items itemName).getD 0 - amount)},
     ⟨"send", "success", none⟩)

/-- Embeds `Avatar.get_item` (models.py lines 959-963). -/
def getItem (items : List (String × Int)) (item : String) : List (String × Int) :=
  if ¬ dictContains items item then items ++ [(item, 1)]
  else dictSet items item ((dictGet items item).getD 0 + 1)

/-- Result record of `Combine.execute` (`result_item` is present only on
success). -/
structure CombineResult where
  type : String
  result : String
  resultItem : Option String
deriving DecidableEq, Repr

/-- The recipe table of `Combine` (models.py lines 686-698), in dict
insertion order.  The Python values are set literals, so the recipes whose
three ingredients coincide denote one-element sets (`FSW1` is
`set(FSWD, FSWD, FSWD) = set(FSWD)`). -/
def recipes : List (String × List String) := [
  ("OYKD", ["RICE", "EGGS", "CHKN"]),
  ("CBNR", ["WHET", "EGGS", "MEAT"]),
  ("STKD", ["RICE", "RKST", "MEAT"]),
  ("CHKR", ["RICE", "RKST", "CHKN"]),
  ("STEK", ["MEAT", "RKST", "OLIV"]),
  ("STCB", ["STEK", "WHET", "EGGS"]),
  ("FRCH", ["CHKN", "RKST", "OLIV"]),
  ("FSWD", ["LSWD", "FLNT", "OLIV"]),
  ("FSW1", ["FSWD"]),
  ("FSW2", ["FSW1"]),
  ("FSW3", ["FSW2"])]

/-- The success-roll table of `Combine` (models.py lines 700-712). -/
def successRollList : List (String × String) := [
  ("OYKD", "1d1"),
  ("CBNR", "1d1"),
  ("STKD", "1d1"),
  ("CHKR", "1d1"),
  ("STEK", "1d1"),
  ("STCB", "1d1"),
  ("FRCH", "1d1"),
  ("FSWD", "1d2"),
  ("FSW1", "1d2"),
  ("FSW2", "1d4"),
  ("FSW3", "1d6")]

/-- Lookup in the success-roll table (total; every recipe key is present). -/
def successRollOf (r : String) : String :=
  ((successRollList.find? (fun p => p.1 == r)).map (fun p => p.2)).getD ""

/-- Python set equality of the sets denoted by two element lists. -/
def pySetEq (xs ys : List String) : Bool :=
  xs.all (fun x => ys.contains x) && ys.all (fun y => xs.contains y)

/-- Embeds `Combine.execute` (models.py lines 714-741): find the first
recipe whose ingredient set equals the set of the three named items; on a
match decrement each of the three named items (`KeyError` if one is
absent), roll the recipe-specific success die (an exhausted stream
propagates `OutOfRandomError` out of the handler), and add the output item
on a roll of 1; with no matching recipe return failure untouched. -/
def combineExecute (i1 i2 i3 : String) (av : Avatar) (randoms : List Nat) :
    Except PyErr (Avatar × CombineResult) :=
  match recipes.find? (fun rc => pySetEq rc.2 [i1, i2, i3]) with
  | none => .ok (av, ⟨"combine", "failure", none⟩)
  | some rc =>
    match dictSub1 av.items i1 with
    | none => .error .keyError
    | some d1 =>
      match dictSub1 d1 i2 with
      | none => .error .keyError
      | some d2 =>
        match dictSub1 d2 i3 with
        | none => .error .keyError
        | some d3 =>
          match roll randoms (successRollOf rc.1) with
          | .error e => .error e
          | .ok (v, _) =>
            if v = 1 then
              .ok ({av with items := getItem d3 rc.1}, ⟨"combine", "success", some rc.1⟩)
            else
              .ok ({av with items := d3}, ⟨"combine", "failure", none⟩)

/-- A sample avatar holding only gold (used for concrete evaluations). -/
def avGold : Avatar := ⟨6, 6, 6, 6, 6, 6, 12, 0, 1, [("GOLD", 5)]⟩

/-- A sample avatar holding three items that match no recipe. -/
def avJunk : Avatar := ⟨6, 6, 6, 6, 6, 6, 12, 0, 1, [("AAA", 1), ("BBB", 1), ("CCC", 1)]⟩

/-- A sample avatar holding the ingredients of the OYKD recipe. -/
def avRice : Avatar := ⟨6, 6, 6, 6, 6, 6, 12, 0, 1, [("RICE", 1), ("EGGS", 1), ("CHKN", 1)]⟩

/-- A sample novice with 8 xp at level 1 (the C6 scenario). -/
def avXp8 : Avatar := ⟨6, 6, 6, 6, 6, 6, 12, 8, 1, [("GOLD", 0)]⟩

/-- One row of the monster table (data/monsters.csv), after the `int`
conversions of `HackAndSlash.execute`.  `rewards i` is the column
`reward<i>`; absent columns are modelled as the empty string. -/
structure Monster where
  hp : Int
  piercing : Int
  armor : Int
  damage : String
  rewards : Nat → String

/-- The `result` tag of a hack-and-slash outcome. -/
inductive CombatResult
  | win
  | lose
  | finish
deriving DecidableEq, Repr

/-- One entry of the `battle_status` log (monster snapshots are omitted:
no claim reads them). -/
inductive BattleEvent
  | itemUse
  | itemUseFail
  | attackMonster (damage : Int)
  | attackedByMonster (damage : Int)
  | getXp
  | killMonster
  | gotItem (item : String)
  | killedByMonster
  | run
deriving DecidableEq, Repr

/-- Embeds `Avatar.modifier` (models.py lines 941-957). -/
def modifier (s : Int) : Int :=
  if s = 1 ∨ s = 2 ∨ s = 3 then -3
  else if s = 4 ∨ s = 5 then -2
  else if s = 6 ∨ s = 7 ∨ s = 8 then -1
  else if s = 9 ∨ s = 10 ∨ s = 11 ∨ s = 12 then 0
  else if s = 13 ∨ s = 14 ∨ s = 15 then 1
  else if s = 16 ∨ s = 17 then 2
  else if s = 18 then 3
  else 0

/-- `Novice.damage` (models.py lines 979-981): the only avatar class. -/
def noviceDamage : String := "1d6"

/-- `Novice.max_hp` (models.py lines 983-985). -/
def maxHp (av : Avatar) : Int := av.constitution + 6

/-- Outcome of one pass through the body of the combat `while` loop. -/
inductive StepOut
  | err (e : PyErr)
  | finished (av : Avatar) (res : CombatResult) (log : List BattleEvent)
  | next (av : Avatar) (monHp : Int) (randoms : List Nat) (log : List BattleEvent)

/-- The bandage step of `HackAndSlash.execute` (models.py lines 455-472):
when hp is at or below 20 percent of max hp and a `BNDG` item is held,
roll `2d6`; on 7 or more heal 4 hp; either way consume one bandage.
The Python comparison is `hp <= max_hp * 0.2` in floating point; it is
modelled as the exact `5 * hp ≤ max_hp` (the two agree for all avatar
sizes the game produces, and no claim depends on the threshold).  A raised
error aborts the step with the avatar unchanged. -/
def bandagePhase (av : Avatar) (randoms : List Nat) (log : List BattleEvent) :
    Except PyErr (Avatar × List Nat × List BattleEvent) :=
  if 5 * av.hp ≤ maxHp av ∧ dictContains av.items "BNDG" ∧
      0 < (dictGet av.items "BNDG").getD 0 then
    match roll randoms "2d6" with
    | .error e => .error e
    | .ok (rolled, r1) =>
      if 7 ≤ rolled then
        .ok ({av with hp := av.hp + 4, items := dictSet av.items "BNDG" ((dictGet av.items "BNDG").getD 0 - 1)}, r1, log ++ [.itemUse])
      else
        .ok ({av with items := dictSet av.items "BNDG" ((dictGet av.items "BNDG").getD 0 - 1)}, r1, log ++ [.itemUseFail])
  else .ok (av, randoms, log)

/-- The end-of-iteration checks of `HackAndSlash.execute` (models.py lines
501-528): monster death (reward roll `1d10`, item award on a non-empty
reward column, result `win`), avatar death (result `lose`), otherwise
another iteration.  An exhausted reward roll is caught by the surrounding
`except` and yields result `finish`. -/
def afterCombat (mon : Monster) (av : Avatar) (monHp : Int) (randoms : List Nat)
    (log : List BattleEvent) : StepOut :=
  if monHp ≤ 0 then
    match roll randoms "1d10" with
    | .error .outOfRandom => .finished av .finish (log ++ [.killMonster, .run])
    | .error e => .err e
    | .ok (rc, _) =>
      if (mon.rewards rc.toNat).length ≠ 0 then
        .finished {av with items := getItem av.items (mon.rewards rc.toNat)} .win
          (log ++ [.killMonster, .gotItem (mon.rewards rc.toNat)])
      else .finished av .win (log ++ [.killMonster])
  else if av.hp ≤ 0 then .finished av .lose (log ++ [.killedByMonster])
  else .next av monHp randoms log

/-- One pass through the body of the combat loop (models.py lines 453-539):
bandage step, attack roll `2d6 + modifier(strength)`, then on 7 or more an
attack with the avatar damage die reduced by the monster armor (floored at
0), on 2..6 a monster counterattack with the monster damage die plus 1 xp,
and the end-of-iteration checks.  Every `OutOfRandomError` raised inside
the body is caught and produces result `finish` with the mutations made so
far kept. -/
def combatStep (mon : Monster) (av : Avatar) (monHp : Int) (randoms : List Nat)
    (log : List BattleEvent) : StepOut :=
  match bandagePhase av randoms log with
  | .error .outOfRandom => .finished av .finish (log ++ [.run])
  | .error e => .err e
  | .ok (av1, r1, log1) =>
    match roll r1 "2d6" with
    | .error .outOfRandom => .finished av1 .finish (log1 ++ [.run])
    | .error e => .err e
    | .ok (ro, r2) =>
      if 7 ≤ ro + modifier av1.strength then
        match roll r2 noviceDamage with
        | .error .outOfRandom => .finished av1 .finish (log1 ++ [.run])
        | .error e => .err e
        | .ok (dr, r3) =>
          afterCombat mon av1 (monHp - max (dr - mon.armor) 0) r3
            (log1 ++ [.attackMonster (max (dr - mon.armor) 0)])
      else if ro + modifier av1.strength = 2 ∨ ro + modifier av1.strength = 3 ∨
          ro + modifier av1.strength = 4 ∨ ro + modifier av1.strength = 5 ∨
          ro + modifier av1.strength = 6 ∨ ro + modifier av1.strength = 7 ∨
          ro + modifier av1.strength = 8 ∨ ro + modifier av1.strength = 9 then
        match roll r2 mon.damage with
        | .error .outOfRandom => .finished av1 .finish (log1 ++ [.run])
        | .error e => .err e
        | .ok (md, r3) =>
          if ro + modifier av1.strength ≤ 6 then
            afterCombat mon {av1 with hp := av1.hp - md, xp := av1.xp + 1} monHp r3
              (log1 ++ [.attackedByMonster md, .getXp])
          else
            afterCombat mon {av1 with hp := av1.hp - md} monHp r3
              (log1 ++ [.attackedByMonster md])
      else afterCombat mon av1 monHp r2 log1

/-- The combat `while True` loop, with an explicit iteration bound: `none`
means the bound ran out (never the case for the bound passed by
`hackAndSlashExecute`: every iteration that continues consumes at least
the two values of its `2d6` attack roll, which is proved below). -/
def combatLoop (mon : Monster) : Nat → Avatar → Int → List Nat → List BattleEvent →
    Option (Except PyErr (Avatar × CombatResult × List BattleEvent))
  | 0, _, _, _, _ => none
  | fuel + 1, av, monHp, randoms, log =>
    match combatStep mon av monHp randoms log with
    | .err e => some (.error e)
    | .finished av2 res log2 => some (.ok (av2, res, log2))
    | .next av2 monHp2 randoms2 log2 => combatLoop mon fuel av2 monHp2 randoms2 log2

/-- Embeds `HackAndSlash.execute` (models.py lines 438-539): pop one value
to pick the monster (an empty stream raises a bare `IndexError` here,
before the guarded loop), then run the combat loop. -/
def hackAndSlashExecute (monsters : List Monster) (av : Avatar) (randoms : List Nat) :
    Option (Except PyErr (Avatar × CombatResult × List BattleEvent)) :=
  match randoms.getLast? with
  | none => some (.error .indexError)
  | some v =>
    if hlen : monsters.length = 0 then some (.error .zeroDiv)
    else
      let mon := monsters.get ⟨v % monsters.length, Nat.mod_lt v (Nat.pos_of_ne_zero hlen)⟩
      combatLoop mon (randoms.length + 1) av mon.hp randoms.dropLast []

/-- A monster whose damage die parses: the well-formedness every row of the
shipped monster table satisfies. -/
def monsterWf (mon : Monster) : Prop :=
  ∃ c m k, parseDice mon.damage = some (c, m, k) ∧ m ≠ 0

/-- A sample monster (used for concrete evaluations). -/
def monSlime : Monster := ⟨3, 0, 0, "1d4", fun i => if i = 1 then "RICE" else ""⟩

/-- Embeds the recursive helper `find_branch_point` of `Block.sync`
(models.py lines 192-205).  `m mid` stands for the probe condition at
height `mid`: the peer returned a block there and its hash equals the hash
of the local block at that height.  The `value > high` guard is checked
before `mid` is used, as in the source, where the requests fired before
the guard do not affect the result; the Python midpoint
`int((value + high) / 2)` truncates towards zero, which agrees with the
division here at every reachable call (`0 ≤ value ≤ high`). -/
def findBranchPoint (m : Int → Bool) (value high : Int) : Int :=
  if hgt : value > high then 0
  else
    if m ((value + high) / 2) then
      (if heq : value = (value + high) / 2 then value
       else findBranchPoint m ((value + high) / 2) high)
    else findBranchPoint m value ((value + high) / 2 - 1)
termination_by (high - value + 1).toNat
decreasing_by
  · omega
  · omega

/-- Embeds the branch-point choice of `Block.sync` (models.py lines
207-215): with no local tip the branch point is 0; otherwise probe the tip
first and fall back to a search from 0. -/
def syncBranchPoint (m : Int → Bool) (lastBlockId : Option Int) : Int :=
  match lastBlockId with
  | none => 0
  | some tip =>
    if findBranchPoint m tip tip = tip then tip
    else findBranchPoint m 0 tip

/-- The probe condition of a pair of chains that agree exactly at heights 1
and 2 (a shared two-block common history). -/
def m12 : Int → Bool := fun j => decide (1 ≤ j ∧ j ≤ 2)

/-- A block as `Block.serialize` and `Block.valid` see it.  `createdAt`
is the already-stringified creation time (`str(created_at)`); `moves`
holds the ids of the linked moves, whose own validity `Block.valid`
delegates to an abstract per-move predicate. -/
structure Block where
  id : Int
  creator : String
  prevHash : Option String
  difficulty : Int
  rootHash : String
  createdAt : String
  suffix : String
  hash : String
  moves : List String
deriving DecidableEq, Repr

/-- bencode of a byte string (`len:bytes`; the serialized fields of this
code base are ASCII, so the character count is the byte count). -/
def bstr (s : String) : String := toString s.length ++ ":" ++ s

/-- bencode of an integer (`i<n>e`). -/
def bint (i : Int) : String := "i" ++ toString i ++ "e"

/-- Embeds `Block.serialize` with `use_bencode=True` and no optional parts
(models.py lines 115-153): the bencoded dictionary of `created_at`,
`creator`, `difficulty`, `id`, `prev_hash` (the key is deleted when the
value is `None`) and `root_hash`, written in bencode key order. -/
def blockSerialize (b : Block) : String :=
  "d" ++ bstr "created_at" ++ bstr b.createdAt
      ++ bstr "creator" ++ bstr b.creator
      ++ bstr "difficulty" ++ bint b.difficulty
      ++ bstr "id" ++ bint b.id
      ++ (match b.prevHash with
          | none => ""
          | some p => bstr "prev_hash" ++ bstr p)
      ++ bstr "root_hash" ++ bstr b.rootHash
      ++ "e"

/-- The stamp `Block.valid` hashes and hashcash-checks: the bencoded
serialization concatenated with the suffix. -/
def blockStamp (b : Block) : String := blockSerialize b ++ b.suffix

/-- Embeds `Block.valid` (models.py lines 105-113), parameterized over the
crypto primitives it consumes: `sha` (hex SHA-256 of a string), `hc`
(`hashcash.check stamp suffix difficulty`; the hashcash module is not part
of models.py) and `moveValid` (`Move.valid` of the move with the given
id).  It checks the block hash, the proof of work and every linked move —
and nothing else. -/
def blockValid (sha : String → String) (hc : String → String → Int → Bool)
    (moveValid : String → Bool) (b : Block) : Bool :=
  (b.hash == sha (blockStamp b)) && hc (blockStamp b) b.suffix b.difficulty &&
    b.moves.all moveValid

/-- Ordered insertion into a sorted list of strings. -/
def insertOrd (x : String) : List String → List String
  | [] => [x]
  | y :: ys => if x ≤ y then x :: y :: ys else y :: insertOrd x ys

/-- Insertion sort on strings (Python `sorted` on move ids). -/
def insertionSort : List String → List String
  | [] => []
  | x :: xs => insertOrd x (insertionSort xs)

/-- Modelled from the spec: the root-hash invariant the claim asserts —
`root_hash == SHA256(concat(sorted(move.id for move in moves)))` — as the
reference value (`User.create_block`, models.py lines 845-847, computes
exactly this when it builds a block). -/
def rootHashSpec (sha : String → String) (moves : List String) : String :=
  sha (String.join (insertionSort moves))

/-- A constant placeholder hash primitive, for concrete evaluation. -/
def shaConst : String → String := fun _ => "h"

/-- A hashcash check that accepts everything (as the real check does at
difficulty 0). -/
def hcTrue : String → String → Int → Bool := fun _ _ _ => true

/-- A block with no moves, an arbitrary `root_hash` and the hash of its own
stamp under `shaConst`. -/
def bJunk : Block := ⟨1, "addr", none, 0, "junk", "t", "sfx", "h", []⟩

/-- The fields of a stored block that `User.create_block` reads when
building the next block.  `createdAt` is in microseconds (the resolution
of the Python datetimes involved). -/
structure ChainBlock where
  id : Int
  createdAt : Int
  difficulty : Int
  hash : String
deriving DecidableEq, Repr

/-- Python `timedelta / int` (`_divide_and_round`): floor-divide the
microsecond count and round the remainder half to even.  `create_block`
always divides by a positive count, the case modelled here. -/
def pyDivRound (a b : Int) : Int :=
  if b < 2 * Int.fmod a b ∨ (2 * Int.fmod a b = b ∧ Int.fmod (Int.fdiv a b) 2 = 1) then
    Int.fdiv a b + 1
  else Int.fdiv a b

/-- The header fields `User.create_block` assigns to the new block. -/
structure NewBlockInfo where
  id : Int
  prevHash : Option String
  difficulty : Int
  createdAt : Int
deriving DecidableEq, Repr

/-- Embeds the id / prev-hash / difficulty assignment of
`User.create_block` (models.py lines 851-874) over a chain ordered by id:
inherit the difficulty of the last block, look up the block at
`max(1, new_id - 10)`, compare the per-block average timedelta with 5 and
15 seconds, and adjust by one.  An empty chain yields the genesis header
(id 1, no previous hash, difficulty 0).  `none` models both the
abandon-on-race return (a block with the new id already exists, line 880)
and the `AttributeError` Python would raise if the difficulty-check block
were missing.  Minting, hashing and the commit are outside these lines. -/
def createBlockInfo (chain : List ChainBlock) (now : Int) : Option NewBlockInfo :=
  match chain.getLast? with
  | none => some ⟨1, none, 0, now⟩
  | some prev =>
    match chain.find? (fun b => b.id == max 1 (prev.id + 1 - 10)) with
    | none => none
    | some b10 =>
      let avg := pyDivRound (now - b10.createdAt) (prev.id + 1 - b10.id)
      let d :=
        if avg ≤ 5000000 then prev.difficulty + 1
        else if 15000000 < avg then prev.difficulty - 1
        else prev.difficulty
      if chain.any (fun b => b.id == prev.id + 1) then none
      else some ⟨prev.id + 1, some prev.hash, d, now⟩

/-- A one-block chain: the genesis block at time 0 with difficulty 0. -/
def chainG : List ChainBlock := [⟨1, 0, 0, "g"⟩]

/-- Decidable equality for `Except`, used to evaluate the embedded
operations on concrete inputs. -/
instance {ε α : Type} [DecidableEq ε] [DecidableEq α] : DecidableEq (Except ε α) := fun a b =>
  match a, b with
  | .error e, .error f =>
    if h : e = f then .isTrue (congrArg Except.error h)
    else .isFalse (fun hx => h (Except.error.inj hx))
  | .ok v, .ok w =>
    if h : v = w then .isTrue (congrArg Except.ok h)
    else .isFalse (fun hx => h (Except.ok.inj hx))
  | .error _, .ok _ => .isFalse (fun hx => Except.noConfusion hx)
  | .ok _, .error _ => .isFalse (fun hx => Except.noConfusion hx)

/-- A non-empty list reversed starts with its last element. -/
theorem reverse_eq_getLast_cons {α : Type} (l : List α) (hne : l ≠ []) :
    l.reverse = l.getLast hne :: l.dropLast.reverse := by
  conv_lhs => rw [← List.dropLast_append_getLast hne]
  simp

/-- Successful draws return the scored last `cnt` elements (in pop order) and
leave the first `length - cnt` elements. -/
theorem drawList_ok (cnt : Nat) :
    ∀ (randoms : List Nat) (m : Nat), m ≠ 0 → cnt ≤ randoms.length →
      drawList randoms cnt m =
        .ok ((randoms.reverse.take cnt).map (fun v => v % m + 1),
             randoms.take (randoms.length - cnt)) := by
  induction cnt with
  | zero => intro randoms m _ _; simp [drawList]
  | succ c ih =>
    intro randoms m hm hlen
    have hne : randoms ≠ [] := by
      intro h
      rw [h] at hlen
      simp at hlen
    rw [drawList, List.getLast?_eq_getLast_of_ne_nil hne]
    simp only [hm, if_false]
    rw [ih randoms.dropLast m hm (by rw [List.length_dropLast]; omega)]
    rw [reverse_eq_getLast_cons randoms hne]
    simp only [List.take_succ_cons, List.map_cons, Except.ok.injEq, Prod.mk.injEq, true_and,
      List.length_dropLast]
    rw [List.dropLast_eq_take, List.take_take]
    congr 1
    omega

/-- Drawing more values than remain raises `OutOfRandomError`. -/
theorem drawList_exhaust (cnt : Nat) :
    ∀ (randoms : List Nat) (m : Nat), m ≠ 0 → randoms.length < cnt →
      drawList randoms cnt m = .error .outOfRandom := by
  induction cnt with
  | zero => intro randoms m _ h; exact absurd h (Nat.not_lt_zero _)
  | succ c ih =>
    intro randoms m hm hlen
    cases hr : randoms.getLast? with
    | none => rw [drawList, hr]
    | some v =>
      have hne : randoms ≠ [] := by
        intro h
        rw [h] at hr
        simp at hr
      have hpos : 0 < randoms.length := List.length_pos.mpr hne
      rw [drawList, hr]
      simp only [hm, if_false]
      rw [ih randoms.dropLast m hm (by rw [List.length_dropLast]; omega)]

/-- With a non-zero dice type, the only error a draw can raise is
`OutOfRandomError`. -/
theorem drawList_err (cnt : Nat) :
    ∀ (randoms : List Nat) (m : Nat) (e : PyErr), m ≠ 0 →
      drawList randoms cnt m = .error e → e = .outOfRandom := by
  induction cnt with
  | zero => intro randoms m e _ h; simp [drawList] at h
  | succ c ih =>
    intro randoms m e hm h
    rw [drawList] at h
    cases hr : randoms.getLast? with
    | none =>
      rw [hr] at h
      exact ((Except.error.injEq _ _).mp h).symm
    | some v =>
      rw [hr] at h
      simp only [hm, if_false] at h
      cases hd : drawList randoms.dropLast c m with
      | error e' =>
        rw [hd] at h
        have h2 : e' = e := (Except.error.injEq _ _).mp h
        rw [← h2]
        exact ih randoms.dropLast m e' hm hd
      | ok p => rw [hd] at h; exact absurd h (by simp)

/-- A successful draw consumes exactly `cnt` values. -/
theorem drawList_ok_length (cnt : Nat) :
    ∀ (randoms : List Nat) (m : Nat) (res rest : List Nat),
      drawList randoms cnt m = .ok (res, rest) → rest.length + cnt = randoms.length := by
  induction cnt with
  | zero =>
    intro randoms m res rest h
    simp [drawList] at h
    rw [← h.2]
    simp
  | succ c ih =>
    intro randoms m res rest h
    rw [drawList] at h
    cases hr : randoms.getLast? with
    | none => rw [hr] at h; cases h
    | some v =>
      have hne : randoms ≠ [] := by
        intro hx
        rw [hx] at hr
        simp at hr
      rw [hr] at h
      by_cases hm : m = 0
      · simp only [hm, if_true] at h; cases h
      · simp only [hm, if_false] at h
        cases hd : drawList randoms.dropLast c m with
        | error e => rw [hd] at h; cases h
        | ok p =>
          rw [hd] at h
          cases h
          have := ih randoms.dropLast m p.1 p.2 (by rw [hd])
          rw [List.length_dropLast] at this
          have hlen : 1 ≤ randoms.length := List.length_pos.mpr hne
          omega

/-- A successful parse and a sufficient stream give the combined score. -/
theorem roll_ok_of_le (randoms : List Nat) (dice : String) (n m : Nat) (k : Int)
    (hp : parseDice dice = some (n, m, k)) (hm : m ≠ 0) (hlen : n ≤ randoms.length) :
    roll randoms dice =
      .ok (((((randoms.reverse.take n).map (fun v => v % m + 1)).sum : Nat) : Int) + k,
           randoms.take (randoms.length - n)) := by
  simp only [roll, hp]
  rw [drawList_ok n randoms m hm hlen]

/-- A stream that is too short makes `Move.roll` raise `OutOfRandomError`. -/
theorem roll_exhaust (randoms : List Nat) (dice : String) (n m : Nat) (k : Int)
    (hp : parseDice dice = some (n, m, k)) (hm : m ≠ 0) (hlen : randoms.length < n) :
    roll randoms dice = .error .outOfRandom := by
  simp only [roll, hp]
  rw [drawList_exhaust n randoms m hm hlen]

/-- For a well-formed dice expression the only exception `Move.roll` can
raise is `OutOfRandomError`. -/
theorem roll_err (randoms : List Nat) (dice : String) (n m : Nat) (k : Int) (e : PyErr)
    (hp : parseDice dice = some (n, m, k)) (hm : m ≠ 0)
    (h : roll randoms dice = .error e) : e = .outOfRandom := by
  simp only [roll, hp] at h
  cases hd : drawList randoms n m with
  | error e' =>
    rw [hd] at h
    have h2 : e' = e := (Except.error.injEq _ _).mp h
    rw [← h2]
    exact drawList_err n randoms m e' hm hd
  | ok p => rw [hd] at h; exact absurd h (by simp)

/-- A successful `Move.roll` consumes exactly the dice count. -/
theorem roll_ok_length (randoms : List Nat) (dice : String) (n m : Nat) (k : Int)
    (v : Int) (rest : List Nat)
    (hp : parseDice dice = some (n, m, k)) (h : roll randoms dice = .ok (v, rest)) :
    rest.length + n = randoms.length := by
  simp only [roll, hp] at h
  cases hd : drawList randoms n m with
  | error e => rw [hd] at h; exact absurd h (by simp)
  | ok p =>
    rw [hd] at h
    have h2 : p.2 = rest := by
      have := (Except.ok.injEq _ _).mp h
      exact ((Prod.mk.injEq _ _ _ _).mp this).2
    rw [← h2]
    exact drawList_ok_length n randoms m p.1 p.2 (by rw [hd])

/-- C5: for every list of random values and every dice expression of the
form `NdM` optionally followed by `+K` (here: every `dice` string that
parses as `(n, m, k)` with `m ≠ 0`), `Move.roll` with `combine=True` draws
`n` values from the tail of the list and returns the sum of
`(v mod m) + 1` over the drawn values plus `k`; it raises
`OutOfRandomError` when fewer than `n` values remain; and in particular
`roll [1, 7, 3] "2d6"` returns `6`. -/
theorem c5_roll_thm (randoms : List Nat) (dice : String) (n m : Nat) (k : Int)
    (hp : parseDice dice = some (n, m, k)) (hm : m ≠ 0) :
    (n ≤ randoms.length →
      roll randoms dice =
        .ok (((((randoms.reverse.take n).map (fun v => v % m + 1)).sum : Nat) : Int) + k,
             randoms.take (randoms.length - n))) ∧
    (randoms.length < n → roll randoms dice = .error .outOfRandom) ∧
    roll [1, 7, 3] "2d6" = .ok (6, [1]) := by
  exact ⟨roll_ok_of_le randoms dice n m k hp hm,
         roll_exhaust randoms dice n m k hp hm,
         by decide⟩

/-- Witness for `c5_roll_thm` at `dice = "2d6"`. -/
theorem c5_roll_witness :
    parseDice "2d6" = some (2, 6, 0) ∧
    roll [1, 7, 3] "2d6" = .ok (6, [1]) ∧
    roll [1] "2d6" = .error .outOfRandom := by
  refine ⟨by decide, ?_, ?_⟩
  · exact (c5_roll_thm [1, 7, 3] "2d6" 2 6 0 (by decide) (by decide)).2.2
  · exact (c5_roll_thm [1] "2d6" 2 6 0 (by decide) (by decide)).2.1 (by decide)

/-- C10: a move with no containing block, a block without a hash, or no id
gets the empty random stream, and every dice roll that draws at least one
value from that stream raises `OutOfRandomError` immediately. -/
theorem c10_unconfirmed_randoms (mv : MoveCtx)
    (h : mv.block = none ∨ (∃ b, mv.block = some b ∧ strFalsy b.hash = true) ∨
         strFalsy mv.id = true) :
    getRandoms mv = [] ∧
    (∀ (dice : String) (n m : Nat) (k : Int), parseDice dice = some (n, m, k) → 1 ≤ n →
      roll (getRandoms mv) dice = .error .outOfRandom) := by
  have hemp : getRandoms mv = [] := by
    rcases h with h1 | ⟨b, hb, hh⟩ | hid
    · rw [getRandoms, h1]
    · rw [getRandoms, hb]
      simp [hh]
    · rw [getRandoms]
      cases hb : mv.block with
      | none => rfl
      | some b => simp [hid]
  refine ⟨hemp, ?_⟩
  intro dice n m k hp hn
  rw [hemp, roll, hp]
  cases n with
  | zero => omega
  | succ c => rfl

/-- Witness for `c10_unconfirmed_randoms` at a block-less move. -/
theorem c10_witness :
    getRandoms ⟨none, some "ab"⟩ = [] ∧
    roll (getRandoms ⟨none, some "ab"⟩) "2d6" = .error .outOfRandom := by
  have h := c10_unconfirmed_randoms ⟨none, some "ab"⟩ (Or.inl rfl)
  exact ⟨h.1, h.2 "2d6" 2 6 0 (by decide) (by decide)⟩

/-- C6: executing a `level_up` move with `xp ≥ lv + 7` deducts `lv + 7`
from xp, increments lv, increments the ability named by
`details[new_status]`, and increments hp by 1 exactly when that ability is
`constitution`; with `xp < lv + 7` it returns a failure record with a
not-enough-xp message and leaves the avatar unchanged. -/
theorem c6_level_up_thm (av : Avatar) (s : String) (hs : s ∈ abilityNames) :
    (av.lv + 7 ≤ av.xp →
      ∃ av2 : Avatar,
        levelUpExecute s av = .ok (av2, ⟨"level_up", "success", none⟩) ∧
        av2.xp = av.xp - (av.lv + 7) ∧
        av2.lv = av.lv + 1 ∧
        statVal av2 s = statVal av s + 1 ∧
        av2.hp = av.hp + (if s = "constitution" then 1 else 0) ∧
        av2.items = av.items ∧
        (∀ t ∈ abilityNames, t ≠ s → statVal av2 t = statVal av t)) ∧
    (av.xp < av.lv + 7 →
      levelUpExecute s av =
        .ok (av, ⟨"level_up", "failed", some "You don\x27t have enough xp."⟩)) := by
  constructor
  · intro hxp
    have hnot : ¬ (av.xp < av.lv + 7) := by omega
    fin_cases hs
    · exact ⟨{av with xp := av.xp - (av.lv + 7), lv := av.lv + 1, strength := av.strength + 1},
        by simp [levelUpExecute, incStatus, hnot], by simp, by simp, by simp [statVal],
        by simp, by simp, by intro t ht hts; fin_cases ht <;> simp_all [statVal]⟩
    · exact ⟨{av with xp := av.xp - (av.lv + 7), lv := av.lv + 1, dexterity := av.dexterity + 1},
        by simp [levelUpExecute, incStatus, hnot], by simp, by simp, by simp [statVal],
        by simp, by simp, by intro t ht hts; fin_cases ht <;> simp_all [statVal]⟩
    · exact ⟨{av with xp := av.xp - (av.lv + 7), lv := av.lv + 1, constitution := av.constitution + 1, hp := av.hp + 1},
        by simp [levelUpExecute, incStatus, hnot], by simp, by simp, by simp [statVal],
        by simp, by simp, by intro t ht hts; fin_cases ht <;> simp_all [statVal]⟩
    · exact ⟨{av with xp := av.xp - (av.lv + 7), lv := av.lv + 1, intelligence := av.intelligence + 1},
        by simp [levelUpExecute, incStatus, hnot], by simp, by simp, by simp [statVal],
        by simp, by simp, by intro t ht hts; fin_cases ht <;> simp_all [statVal]⟩
    · exact ⟨{av with xp := av.xp - (av.lv + 7), lv := av.lv + 1, wisdom := av.wisdom + 1},
        by simp [levelUpExecute, incStatus, hnot], by simp, by simp, by simp [statVal],
        by simp, by simp, by intro t ht hts; fin_cases ht <;> simp_all [statVal]⟩
    · exact ⟨{av with xp := av.xp - (av.lv + 7), lv := av.lv + 1, charisma := av.charisma + 1},
        by simp [levelUpExecute, incStatus, hnot], by simp, by simp, by simp [statVal],
        by simp, by simp, by intro t ht hts; fin_cases ht <;> simp_all [statVal]⟩
  · intro hxp
    simp [levelUpExecute, hxp]

/-- Witness for `c6_level_up_thm`: the novice of the C6 scenario. -/
theorem c6_level_up_witness :
    ∃ av2 : Avatar,
      levelUpExecute "strength" avXp8 = .ok (av2, ⟨"level_up", "success", none⟩) ∧
      av2.xp = 0 ∧ av2.lv = 2 ∧ av2.strength = 7 ∧ av2.hp = 12 := by
  obtain ⟨av2, h1, h2, h3, h4, h5, _, _⟩ :=
    (c6_level_up_thm avXp8 "strength" (by decide)).1 (by decide)
  refine ⟨av2, h1, by simpa [avXp8] using h2, by simpa [avXp8] using h3,
          by simpa [statVal, avXp8] using h4, by simpa [avXp8] using h5⟩

/-- C7 as stated is false: with `amount = 0` and an item that has no
inventory entry, the sender holds at least `0` of the item, yet
`Send.execute` returns the failure record (membership is tested before the
count). -/
theorem c7_counterexample :
    sendExecute "FOO" 0 avGold =
      (avGold, ⟨"send", "fail", some "You don\x27t have enough items to send."⟩) ∧
    (0 : Int) ≤ (dictGet avGold.items "FOO").getD 0 := by
  constructor
  · rfl
  · decide

/-- C7 (amended): `Send.execute` returns success and deducts
`details.amount` of `details.item_name` exactly when the item has an
inventory entry whose count is at least the amount (for positive amounts
this is the same as holding at least that many); otherwise it returns a
normal failure record, not an exception, and the avatar is unchanged. -/
theorem c7_send_thm (itemName : String) (amount : Int) (av : Avatar) :
    (dictContains av.items itemName = true →
      amount ≤ (dictGet av.items itemName).getD 0 →
      sendExecute itemName amount av =
        ({av with items := dictSet av.items itemName ((dictGet av.items itemName).getD 0 - amount)},
         ⟨"send", "success", none⟩)) ∧
    ((dictContains av.items itemName = false ∨
        (dictGet av.items itemName).getD 0 < amount) →
      sendExecute itemName amount av =
        (av, ⟨"send", "fail", some "You don\x27t have enough items to send."⟩)) := by
  constructor
  · intro hc hle
    have hcond : ¬ (¬ dictContains av.items itemName ∨
        (dictGet av.items itemName).getD 0 - amount < 0) := by
      push_neg
      exact ⟨by simp [hc], by omega⟩
    rw [sendExecute, if_neg hcond]
  · intro hfail
    have hcond : (¬ dictContains av.items itemName ∨
        (dictGet av.items itemName).getD 0 - amount < 0) := by
      rcases hfail with hc | hlt
      · exact Or.inl (by simp [hc])
      · exact Or.inr (by omega)
    rw [sendExecute, if_pos hcond]

/-- Witness for `c7_send_thm` at a concrete avatar. -/
theorem c7_send_witness :
    sendExecute "GOLD" 3 avGold =
      ({avGold with items := [("GOLD", 2)]}, ⟨"send", "success", none⟩) ∧
    sendExecute "GOLD" 9 avGold =
      (avGold, ⟨"send", "fail", some "You don\x27t have enough items to send."⟩) := by
  constructor
  · have h := (c7_send_thm "GOLD" 3 avGold).1 (by decide) (by decide)
    rw [h]
    decide
  · exact (c7_send_thm "GOLD" 9 avGold).2 (Or.inr (by decide))

/-- C8 as stated is false: a combine move whose three items match no recipe
consumes nothing (the decrements happen only inside the recipe-match
branch), so "consumes one of each of the three items" does not hold on the
no-match path; the handler returns failure with the inventory unchanged. -/
theorem c8_counterexample :
    combineExecute "AAA" "BBB" "CCC" avJunk [0] =
      .ok (avJunk, ⟨"combine", "failure", none⟩) ∧
    dictGet avJunk.items "AAA" = some 1 := by
  constructor
  · rfl
  · rfl

/-- C8 (amended): when the unordered triple matches a recipe,
`Combine.execute` consumes one of each of the three named items (raising
`KeyError` if one is absent), rolls the recipe-specific success die, and
adds the output item exactly when the roll is 1 (returning success),
otherwise returning failure; when no recipe matches it returns failure
with the inventory untouched and consumes nothing. -/
theorem c8_combine_thm (i1 i2 i3 : String) (av : Avatar) (randoms : List Nat)
    (rc : String × List String) (d1 d2 d3 : List (String × Int)) (v : Int) (rest : List Nat)
    (hrc : recipes.find? (fun p => pySetEq p.2 [i1, i2, i3]) = some rc)
    (h1 : dictSub1 av.items i1 = some d1)
    (h2 : dictSub1 d1 i2 = some d2)
    (h3 : dictSub1 d2 i3 = some d3)
    (hroll : roll randoms (successRollOf rc.1) = .ok (v, rest)) :
    combineExecute i1 i2 i3 av randoms =
      (if v = 1 then
        .ok ({av with items := getItem d3 rc.1}, ⟨"combine", "success", some rc.1⟩)
      else
        .ok ({av with items := d3}, ⟨"combine", "failure", none⟩)) ∧
    (∀ (j1 j2 j3 : String) (bv : Avatar) (rnd : List Nat),
      recipes.find? (fun p => pySetEq p.2 [j1, j2, j3]) = none →
      combineExecute j1 j2 j3 bv rnd = .ok (bv, ⟨"combine", "failure", none⟩)) := by
  constructor
  · simp only [combineExecute, hrc, h1, h2, h3, hroll]
  · intro j1 j2 j3 bv rnd hnone
    simp only [combineExecute, hnone]

/-- Witness for `c8_combine_thm`: combining the OYKD ingredients with a
stream whose roll scores 1. -/
theorem c8_combine_witness :
    combineExecute "RICE" "EGGS" "CHKN" avRice [0] =
      .ok ({avRice with items := [("RICE", 0), ("EGGS", 0), ("CHKN", 0), ("OYKD", 1)]},
           ⟨"combine", "success", some "OYKD"⟩) := by
  have h := (c8_combine_thm "RICE" "EGGS" "CHKN" avRice [0]
    ("OYKD", ["RICE", "EGGS", "CHKN"])
    [("RICE", 0), ("EGGS", 1), ("CHKN", 1)]
    [("RICE", 0), ("EGGS", 0), ("CHKN", 1)]
    [("RICE", 0), ("EGGS", 0), ("CHKN", 0)]
    1 []
    (by decide) (by decide) (by decide) (by decide) (by decide)).1
  rw [h]
  decide

/-- A successful `Move.roll` never lengthens the stream. -/
theorem roll_ok_le (randoms : List Nat) (dice : String) (v : Int) (rest : List Nat)
    (h : roll randoms dice = .ok (v, rest)) : rest.length ≤ randoms.length := by
  cases hp : parseDice dice with
  | none => rw [roll, hp] at h; exact absurd h (by simp)
  | some t =>
    obtain ⟨n, m, k⟩ := t
    have := roll_ok_length randoms dice n m k v rest hp h
    omega

/-- The bandage step never lengthens the stream. -/
theorem bandagePhase_ok_le {av : Avatar} {r : List Nat} {l : List BattleEvent}
    {av1 : Avatar} {r1 : List Nat} {l1 : List BattleEvent}
    (h : bandagePhase av r l = .ok (av1, r1, l1)) : r1.length ≤ r.length := by
  rw [bandagePhase] at h
  split at h
  · cases hr : roll r "2d6" with
    | error e => rw [hr] at h; exact absurd h (by simp)
    | ok p =>
      obtain ⟨rolled, rr⟩ := p
      rw [hr] at h
      simp only [] at h
      have hle := roll_ok_le r "2d6" rolled rr hr
      split at h <;>
        (simp only [Except.ok.injEq, Prod.mk.injEq] at h; rw [← h.2.1]; exact hle)
  · simp only [Except.ok.injEq, Prod.mk.injEq] at h
    rw [← h.2.1]

/-- The bandage step can only raise `OutOfRandomError`. -/
theorem bandagePhase_err {av : Avatar} {r : List Nat} {l : List BattleEvent} {e : PyErr}
    (h : bandagePhase av r l = .error e) : e = .outOfRandom := by
  rw [bandagePhase] at h
  split at h
  · cases hr : roll r "2d6" with
    | error e2 =>
      rw [hr] at h
      have h2 : e2 = e := (Except.error.injEq _ _).mp h
      rw [← h2]
      exact roll_err r "2d6" 2 6 0 e2 (by decide) (by decide) hr
    | ok p =>
      obtain ⟨rolled, rr⟩ := p
      rw [hr] at h
      simp only [] at h
      split at h <;> exact absurd h (by simp)
  · exact absurd h (by simp)

/-- The end-of-iteration checks never produce a propagating error. -/
theorem afterCombat_not_err {mon : Monster} {av : Avatar} {monHp : Int}
    {randoms : List Nat} {log : List BattleEvent} {e : PyErr} :
    afterCombat mon av monHp randoms log ≠ .err e := by
  rw [afterCombat]
  split
  · cases hr : roll randoms "1d10" with
    | error e2 =>
      have he2 := roll_err randoms "1d10" 1 10 0 e2 (by decide) (by decide) hr
      rw [he2]
      simp
    | ok p =>
      obtain ⟨rc, rr⟩ := p
      simp only []
      split <;> simp
  · split <;> simp

/-- When the end-of-iteration checks continue the loop, the stream is passed
on unchanged. -/
theorem afterCombat_next {mon : Monster} {av : Avatar} {monHp : Int}
    {randoms : List Nat} {log : List BattleEvent}
    {av2 : Avatar} {monHp2 : Int} {randoms2 : List Nat} {log2 : List BattleEvent}
    (h : afterCombat mon av monHp randoms log = .next av2 monHp2 randoms2 log2) :
    randoms2 = randoms := by
  rw [afterCombat] at h
  split at h
  · cases hr : roll randoms "1d10" with
    | error e2 =>
      have he2 := roll_err randoms "1d10" 1 10 0 e2 (by decide) (by decide) hr
      rw [he2] at hr
      rw [hr] at h
      exact absurd h (by simp)
    | ok p =>
      obtain ⟨rc, rr⟩ := p
      rw [hr] at h
      simp only [] at h
      split at h <;> exact absurd h (by simp)
  · split at h
    · exact absurd h (by simp)
    · exact (((StepOut.next.injEq _ _ _ _ _ _ _ _).mp h).2.2.1).symm

/-- An iteration that continues the loop has consumed at least its `2d6`
attack roll: the stream strictly shrinks. -/
theorem combatStep_next_lt {mon : Monster} {av : Avatar} {monHp : Int}
    {randoms : List Nat} {log : List BattleEvent}
    {av2 : Avatar} {monHp2 : Int} {randoms2 : List Nat} {log2 : List BattleEvent}
    (h : combatStep mon av monHp randoms log = .next av2 monHp2 randoms2 log2) :
    randoms2.length < randoms.length := by
  rw [combatStep] at h
  cases hb : bandagePhase av randoms log with
  | error e =>
    have hoe := bandagePhase_err hb
    rw [hoe] at hb
    rw [hb] at h
    exact absurd h (by simp)
  | ok t =>
    obtain ⟨av1, r1, log1⟩ := t
    rw [hb] at h
    simp only [] at h
    have hble := bandagePhase_ok_le hb
    cases h2 : roll r1 "2d6" with
    | error e2 =>
      have he2 := roll_err r1 "2d6" 2 6 0 e2 (by decide) (by decide) h2
      rw [he2] at h2
      rw [h2] at h
      exact absurd h (by simp)
    | ok p =>
      obtain ⟨ro, r2⟩ := p
      rw [h2] at h
      have h2lt : r2.length < r1.length := by
        have := roll_ok_length r1 "2d6" 2 6 0 ro r2 (by decide) h2
        omega
      simp only [] at h
      split at h
      · cases h3 : roll r2 noviceDamage with
        | error e3 =>
          cases e3 <;> (rw [h3] at h; exact absurd h (by simp))
        | ok q =>
          obtain ⟨dr, r3⟩ := q
          rw [h3] at h
          simp only [] at h
          have h3le := roll_ok_le r2 noviceDamage dr r3 h3
          have hac := afterCombat_next h
          have : randoms2.length = r3.length := by rw [hac]
          omega
      · split at h
        · cases h3 : roll r2 mon.damage with
          | error e3 =>
            cases e3 <;> (rw [h3] at h; exact absurd h (by simp))
          | ok q =>
            obtain ⟨md, r3⟩ := q
            rw [h3] at h
            simp only [] at h
            have h3le := roll_ok_le r2 mon.damage md r3 h3
            split at h <;>
              (have hac := afterCombat_next h;
               have : randoms2.length = r3.length := by rw [hac];
               omega)
        · have hac := afterCombat_next h
          have : randoms2.length = r2.length := by rw [hac]
          omega

/-- For a monster with a well-formed damage die, an iteration never yields a
propagating error: every in-loop `OutOfRandomError` is caught. -/
theorem combatStep_no_err {mon : Monster} {av : Avatar} {monHp : Int}
    {randoms : List Nat} {log : List BattleEvent} {e : PyErr} (hwf : monsterWf mon) :
    combatStep mon av monHp randoms log ≠ .err e := by
  obtain ⟨c, m, k, hpd, hm⟩ := hwf
  intro h
  rw [combatStep] at h
  cases hb : bandagePhase av randoms log with
  | error e0 =>
    have hoe := bandagePhase_err hb
    rw [hoe] at hb
    rw [hb] at h
    exact absurd h (by simp)
  | ok t =>
    obtain ⟨av1, r1, log1⟩ := t
    rw [hb] at h
    simp only [] at h
    cases h2 : roll r1 "2d6" with
    | error e2 =>
      have he2 := roll_err r1 "2d6" 2 6 0 e2 (by decide) (by decide) h2
      rw [he2] at h2
      rw [h2] at h
      exact absurd h (by simp)
    | ok p =>
      obtain ⟨ro, r2⟩ := p
      rw [h2] at h
      simp only [] at h
      split at h
      · cases h3 : roll r2 noviceDamage with
        | error e3 =>
          have he3 := roll_err r2 noviceDamage 1 6 0 e3 (by decide) (by decide) h3
          rw [he3] at h3
          rw [h3] at h
          exact absurd h (by simp)
        | ok q =>
          obtain ⟨dr, r3⟩ := q
          rw [h3] at h
          exact absurd h afterCombat_not_err
      · split at h
        · cases h3 : roll r2 mon.damage with
          | error e3 =>
            have he3 := roll_err r2 mon.damage c m k e3 hpd hm h3
            rw [he3] at h3
            rw [h3] at h
            exact absurd h (by simp)
          | ok q =>
            obtain ⟨md, r3⟩ := q
            rw [h3] at h
            simp only [] at h
            split at h <;> exact absurd h afterCombat_not_err
        · exact absurd h afterCombat_not_err

/-- With an empty stream the bandage step either raises `OutOfRandomError`
or does nothing. -/
theorem bandagePhase_nil (av : Avatar) (log : List BattleEvent) :
    bandagePhase av [] log = .error .outOfRandom ∨
    bandagePhase av [] log = .ok (av, [], log) := by
  rw [bandagePhase]
  split
  · left
    rfl
  · right
    rfl

/-- With an empty stream an iteration immediately runs (result `finish`),
with the avatar untouched. -/
theorem combatStep_nil (mon : Monster) (av : Avatar) (monHp : Int) (log : List BattleEvent) :
    combatStep mon av monHp [] log = .finished av .finish (log ++ [.run]) := by
  rw [combatStep]
  rcases bandagePhase_nil av log with hb | hb <;> rw [hb]
  have h26 : roll ([] : List Nat) "2d6" = .error .outOfRandom := by decide
  simp only []
  rw [h26]

/-- Enough fuel makes the combat loop return: it either finishes inside the
step or strictly shrinks the stream. -/
theorem combatLoop_ok {mon : Monster} (hwf : monsterWf mon) :
    ∀ (fuel : Nat) (av : Avatar) (monHp : Int) (randoms : List Nat) (log : List BattleEvent),
      randoms.length < fuel →
      ∃ av2 res log2,
        combatLoop mon fuel av monHp randoms log = some (.ok (av2, res, log2)) := by
  intro fuel
  induction fuel with
  | zero =>
    intro av mh r l hlen
    exact absurd hlen (by omega)
  | succ f ih =>
    intro av mh r l hlen
    simp only [combatLoop]
    cases hs : combatStep mon av mh r l with
    | err e => exact absurd hs (combatStep_no_err hwf)
    | finished av2 res log2 => exact ⟨av2, res, log2, rfl⟩
    | next av2 mh2 r2 log2 =>
      have hlt := combatStep_next_lt hs
      exact ih av2 mh2 r2 log2 (by omega)

/-- C3 as stated is false: on the empty random stream the monster-selection
draw (models.py line 447) happens before the guarded loop and raises a bare
`IndexError`, so `HackAndSlash.execute` does not terminate normally with
result `finish`. -/
theorem c3_counterexample :
    hackAndSlashExecute [monSlime] avGold [] = some (.error .indexError) := rfl

/-- C3 (amended): once the monster-selection draw succeeds (any non-empty
stream, a non-empty monster table with well-formed damage dice),
`HackAndSlash.execute` terminates normally — every `OutOfRandomError`
raised during combat is caught — and in particular a stream exhausted
right after monster selection yields result `finish` with the avatar
unchanged. -/
theorem c3_hack_and_slash_thm (monsters : List Monster) (av : Avatar)
    (randoms : List Nat) (hmon : monsters ≠ [])
    (hwf : ∀ mon ∈ monsters, monsterWf mon) (hr : randoms ≠ []) :
    (∃ av2 res log2,
      hackAndSlashExecute monsters av randoms = some (.ok (av2, res, log2))) ∧
    (∀ v : Nat, hackAndSlashExecute monsters av [v] = some (.ok (av, .finish, [.run]))) := by
  have hne0 : monsters.length ≠ 0 := by
    intro hx
    exact hmon (List.length_eq_zero.mp hx)
  constructor
  · rw [hackAndSlashExecute, List.getLast?_eq_getLast_of_ne_nil hr]
    simp only [hne0, dite_false]
    refine combatLoop_ok (hwf _ (List.get_mem _ _ _)) (randoms.length + 1) av _
      randoms.dropLast [] ?_
    rw [List.length_dropLast]
    omega
  · intro v
    rw [hackAndSlashExecute]
    have hgl : ([v] : List Nat).getLast? = some v := rfl
    rw [hgl]
    simp only [hne0, dite_false]
    have hdl : ([v] : List Nat).dropLast = [] := rfl
    rw [hdl]
    simp only [combatLoop, combatStep_nil]
    rfl

/-- Witness for `c3_hack_and_slash_thm` at a concrete table, avatar and
stream. -/
theorem c3_witness :
    hackAndSlashExecute [monSlime] avGold [5] = some (.ok (avGold, .finish, [.run])) := by
  refine (c3_hack_and_slash_thm [monSlime] avGold [5] (by simp) ?_ (by simp)).2 5
  intro mon hm
  rw [List.mem_singleton] at hm
  rw [hm]
  exact ⟨1, 4, 0, by decide, by decide⟩

/-- When the matching heights are exactly the initial segment `1..g` with
`g ≥ 1`, the probe started inside `[v, h]` with `v ≤ g ≤ h` lands on `g` or
on `g - 1` (the floor midpoint together with the `value == mid` early
return can stop one short of the boundary). -/
theorem findBranchPoint_seg {m : Int → Bool} {g : Int}
    (hm : ∀ j : Int, m j = true ↔ (1 ≤ j ∧ j ≤ g)) (hg : 1 ≤ g) :
    ∀ (n : Nat) (v h : Int), (h - v + 1).toNat ≤ n → 0 ≤ v → v ≤ g → g ≤ h →
      findBranchPoint m v h = g ∨ findBranchPoint m v h = g - 1 := by
  intro n
  induction n with
  | zero =>
    intro v h hn hv hvg hgh
    omega
  | succ nn ih =>
    intro v h hn hv hvg hgh
    rw [findBranchPoint]
    have hvh : ¬ (v > h) := by omega
    rw [dif_neg hvh]
    by_cases hmid : m ((v + h) / 2) = true
    · rw [if_pos hmid]
      have h1 := (hm ((v + h) / 2)).mp hmid
      by_cases heq : v = (v + h) / 2
      · rw [dif_pos heq]
        omega
      · rw [dif_neg heq]
        exact ih ((v + h) / 2) h (by omega) (by omega) (by omega) hgh
    · rw [if_neg hmid]
      have h1 : ¬ (1 ≤ (v + h) / 2 ∧ (v + h) / 2 ≤ g) := fun hx => hmid ((hm _).mpr hx)
      by_cases hmid0 : (v + h) / 2 ≤ 0
      · have hv0 : v = 0 := by omega
        have hh1 : h = 1 := by omega
        right
        rw [hv0, hh1]
        rw [findBranchPoint]
        norm_num
        omega
      · exact ih v ((v + h) / 2 - 1) (by omega) (by omega) (by omega) (by omega)

/-- With no matching height at all the probe returns 0. -/
theorem findBranchPoint_none {m : Int → Bool} (hm : ∀ j : Int, m j = false) :
    ∀ (n : Nat) (v h : Int), (h - v + 1).toNat ≤ n → findBranchPoint m v h = 0 := by
  intro n
  induction n with
  | zero =>
    intro v h hn
    rw [findBranchPoint]
    rw [dif_pos (by omega)]
  | succ nn ih =>
    intro v h hn
    rw [findBranchPoint]
    by_cases hvh : v > h
    · rw [dif_pos hvh]
    · rw [dif_neg hvh]
      rw [hm ((v + h) / 2)]
      simp only [Bool.false_eq_true, if_false]
      exact ih v ((v + h) / 2 - 1) (by omega)

/-- C1 as stated is false: for the honest common history `m12` (the chains
agree exactly at heights 1 and 2) and a local tip of 6, the probe returns
1, not the greatest matching height 2: the binary search over the floor
midpoint discards height 2 without probing it. -/
theorem c1_counterexample :
    syncBranchPoint m12 (some 6) = 1 ∧ m12 2 = true := by
  have h1 : findBranchPoint m12 6 6 = 0 := by
    rw [findBranchPoint]
    norm_num [m12]
    rw [findBranchPoint]
    norm_num
  have h2 : findBranchPoint m12 0 6 = 1 := by
    rw [findBranchPoint]
    norm_num [m12]
    rw [findBranchPoint]
    norm_num [m12]
    rw [findBranchPoint]
    norm_num [m12]
  refine ⟨?_, by decide⟩
  rw [syncBranchPoint]
  simp only [h1]
  norm_num
  exact h2

/-- C1 (amended): when the matching heights form the initial segment
`1..g` of the chain (the honest common-history shape; `0 ≤ g ≤ tip`,
`tip ≥ 1`), the branch-point computation of `Block.sync` returns `g` or
`g - 1` — always a matching height or 0, but possibly one block short of
the greatest matching height. -/
theorem c1_branch_point_thm (m : Int → Bool) (g tip : Int)
    (hm : ∀ j : Int, m j = true ↔ (1 ≤ j ∧ j ≤ g))
    (hg : 0 ≤ g) (hgt : g ≤ tip) (htip : 1 ≤ tip) :
    syncBranchPoint m (some tip) = g ∨ syncBranchPoint m (some tip) = g - 1 := by
  rw [syncBranchPoint]
  have hmid : (tip + tip) / 2 = tip := by omega
  by_cases hmt : m tip = true
  · have hgtip : g = tip := by
      have := (hm tip).mp hmt
      omega
    have hf : findBranchPoint m tip tip = tip := by
      rw [findBranchPoint]
      rw [dif_neg (by omega)]
      rw [hmid, hmt]
      simp
    rw [hf, if_pos rfl]
    left
    omega
  · have hf : findBranchPoint m tip tip = 0 := by
      rw [findBranchPoint]
      rw [dif_neg (by omega)]
      rw [hmid]
      have : m tip = false := by
        cases hx : m tip with
        | false => rfl
        | true => exact absurd hx hmt
      rw [this]
      simp only [Bool.false_eq_true, if_false]
      rw [findBranchPoint]
      rw [dif_pos (by omega)]
    rw [hf]
    rw [if_neg (by omega)]
    by_cases hg0 : g = 0
    · left
      rw [hg0]
      refine findBranchPoint_none ?_ (tip - 0 + 1).toNat 0 tip (by omega)
      intro j
      cases hx : m j with
      | false => rfl
      | true =>
        have := (hm j).mp hx
        omega
    · exact findBranchPoint_seg hm (by omega) (tip - 0 + 1).toNat 0 tip
        (by omega) (by omega) (by omega) hgt

/-- Witness for `c1_branch_point_thm` at the `m12` history with tip 6. -/
theorem c1_branch_point_witness :
    syncBranchPoint m12 (some 6) = 2 ∨ syncBranchPoint m12 (some 6) = 2 - 1 := by
  refine c1_branch_point_thm m12 2 6 ?_ (by omega) (by omega) (by omega)
  intro j
  rw [m12]
  simp

/-- C2 as stated is false: `Block.valid` checks only the hash, the proof of
work and the per-move validity.  Here a block whose `root_hash` is
`"junk"` — not the hash of the (empty) concatenation of its sorted move
ids — passes `Block.valid`; and `Block.valid` takes no chain at all, so
`prev_hash` continuity is not checked either.  The block is not rejected
and the sync does not roll back. -/
theorem c2_counterexample :
    blockValid shaConst hcTrue (fun _ => true) bJunk = true ∧
    bJunk.rootHash ≠ rootHashSpec shaConst bJunk.moves := by
  constructor
  · rfl
  · decide

/-- C2 (amended): for every hash primitive, hashcash check and per-move
validity, a block whose `hash` field matches its own stamp, whose
hashcash check passes and whose moves all validate is accepted by
`Block.valid` whatever its `root_hash` and `prev_hash` are:
root-hash consistency with the moves and chain continuity are not part of
the check, so blocks violating them are admitted during sync. -/
theorem c2_block_valid_thm (sha : String → String)
    (hc : String → String → Int → Bool) (moveValid : String → Bool) (b : Block)
    (hhash : b.hash = sha (blockStamp b))
    (hhc : hc (blockStamp b) b.suffix b.difficulty = true)
    (hmv : b.moves.all moveValid = true) :
    blockValid sha hc moveValid b = true := by
  rw [blockValid, hhash, hhc, hmv]
  simp

/-- Witness for `c2_block_valid_thm` at the concrete primitives. -/
theorem c2_block_valid_witness :
    blockValid shaConst hcTrue (fun _ => false) {bJunk with moves := []} = true :=
  c2_block_valid_thm shaConst hcTrue (fun _ => false) {bJunk with moves := []}
    rfl rfl rfl

/-- C4: building block `H+1` on a non-empty chain inherits the difficulty
of block `H`, takes `B10` the block at id `max(1, H − 9)` and
`avg_dt = (now − B10.created_at) / (H + 1 − B10.id)` (Python timedelta
division: microseconds, rounding half to even), and increments the
difficulty when `avg_dt ≤ 5` seconds, decrements it when `avg_dt > 15`
seconds, and keeps it otherwise; the genesis block gets difficulty 0. -/
theorem c4_difficulty_thm (chain : List ChainBlock) (now : Int)
    (prev b10 : ChainBlock)
    (hlast : chain.getLast? = some prev)
    (hb10 : chain.find? (fun b => b.id == max 1 (prev.id + 1 - 10)) = some b10)
    (hrace : chain.any (fun b => b.id == prev.id + 1) = false) :
    (∀ t : Int, createBlockInfo [] t = some ⟨1, none, 0, t⟩) ∧
    createBlockInfo chain now =
      some ⟨prev.id + 1, some prev.hash,
        (if pyDivRound (now - b10.createdAt) (prev.id + 1 - b10.id) ≤ 5000000 then
          prev.difficulty + 1
         else if 15000000 < pyDivRound (now - b10.createdAt) (prev.id + 1 - b10.id) then
          prev.difficulty - 1
         else prev.difficulty), now⟩ := by
  constructor
  · intro t
    rfl
  · simp only [createBlockInfo, hlast, hb10, hrace, Bool.false_eq_true, if_false]

/-- Witness for `c4_difficulty_thm`: one genesis block at time 0, a new
block 4 seconds later: the average is at most 5 seconds, so the
difficulty rises from 0 to 1. -/
theorem c4_difficulty_witness :
    createBlockInfo chainG 4000000 = some ⟨2, some "g", 1, 4000000⟩ := by
  have h := (c4_difficulty_thm chainG 4000000 ⟨1, 0, 0, "g"⟩ ⟨1, 0, 0, "g"⟩
    (by decide) (by decide) (by decide)).2
  rw [h]
  decide

/-- C9 as stated is false: on a chain holding only the genesis block
(difficulty 0), a block created 16 seconds later is assigned difficulty
−1: the decrement branch has no floor at 0. -/
theorem c9_counterexample :
    createBlockInfo chainG 16000000 = some ⟨2, some "g", -1, 16000000⟩ ∧
    (-1 : Int) < 0 := by
  constructor
  · decide
  · decide

/-- C9 (amended): the difficulty `User.create_block` assigns is within 1
of the previous difficulty (and genesis gets 0), but it is NOT guaranteed
non-negative: nothing stops the decrement below zero. -/
theorem c9_difficulty_bounds_thm (chain : List ChainBlock) (now : Int)
    (prev b10 : ChainBlock) (info : NewBlockInfo)
    (hlast : chain.getLast? = some prev)
    (hb10 : chain.find? (fun b => b.id == max 1 (prev.id + 1 - 10)) = some b10)
    (hinfo : createBlockInfo chain now = some info) :
    prev.difficulty - 1 ≤ info.difficulty ∧ info.difficulty ≤ prev.difficulty + 1 := by
  simp only [createBlockInfo, hlast, hb10] at hinfo
  split at hinfo
  · exact absurd hinfo (by simp)
  · have h2 : info.difficulty =
        (if pyDivRound (now - b10.createdAt) (prev.id + 1 - b10.id) ≤ 5000000 then
          prev.difficulty + 1
         else if 15000000 < pyDivRound (now - b10.createdAt) (prev.id + 1 - b10.id) then
          prev.difficulty - 1
         else prev.difficulty) := by
      have := (Option.some.injEq _ _).mp hinfo
      rw [← this]
    rw [h2]
    split
    · omega
    · split
      · omega
      · omega

/-- Witness for `c9_difficulty_bounds_thm` at the slow-genesis chain. -/
theorem c9_difficulty_bounds_witness :
    (0 : Int) - 1 ≤ (-1 : Int) ∧ (-1 : Int) ≤ (0 : Int) + 1 := by
  have h := c9_difficulty_bounds_thm chainG 16000000 ⟨1, 0, 0, "g"⟩ ⟨1, 0, 0, "g"⟩
    ⟨2, some "g", -1, 16000000⟩ (by decide) (by decide) (by decide)
  exact h
